import Mathlib

/-!
Verification of the PebbleMQ retention engine
(`internal/mq/mqimpl/pebblemq/server/pebblemq_retention.go`).

The stores are shallowly embedded: a pebble instance is an association
list of `(key, value)` byte strings kept in strictly ascending
lexicographic key order (pebble iterates keys in that order).  Keys and
values are `List Char` restricted to ASCII, so lexicographic order on
codepoints coincides with byte order.  Machine `int64` values are
modelled as `Int` (no claim below is about overflow behaviour).
Fallible Go code returns `Except String`.
-/

namespace Retention

/-- Byte strings (keys and values); ASCII throughout. -/
abbrev Str := List Char

/-- A pebble store: association list assumed strictly sorted by key. -/
abbrev KV := List (Str × Str)

/-- Lexicographic strict order on byte strings, as pebble's default
bytewise comparator. -/
def strLt : Str → Str → Bool
  | _, [] => false
  | [], _ :: _ => true
  | a :: as, b :: bs => a.toNat < b.toNat || (a == b && strLt as bs)

/-- Reflexive lexicographic order, `a ≤ b` iff `¬ b < a` (total order). -/
def strLe (a b : Str) : Bool := !(strLt b a)

/-- Modelled from the spec: `typeutil.AddOne` (§6): lexicographic
successor via increment of the right-most byte, or append a zero byte
when the string ends in the maximum byte. -/
def addOne : Str → Str
  | [] => []
  | [c] => if c.toNat == 255 then [c, Char.ofNat 0] else [Char.ofNat (c.toNat + 1)]
  | c :: rest => c :: addOne rest

/-- Modelled from the spec (§4.1): `Load(key)` returns the empty string
for absent keys, distinct from an error. -/
def load (kv : KV) (k : Str) : Str := (List.lookup k kv).getD []

/-- Modelled from the spec (§4.1): a batched `DeleteRange(lo, hi)` with
`hi` exclusive; keeps exactly the entries outside `[lo, hi)`. -/
def deleteRange (kv : KV) (lo hi : Str) : KV :=
  kv.filter (fun e => !(strLe lo e.1 && strLt e.1 hi))

/-- Well-formedness of a store: keys strictly ascending (pebble
iteration order). -/
def sortedB : KV → Bool
  | [] => true
  | [_] => true
  | a :: b :: rest => strLt a.1 b.1 && sortedB (b :: rest)

/-- Value of an ASCII decimal digit. -/
def digitVal (c : Char) : Option Nat :=
  if '0' ≤ c ∧ c ≤ '9' then some (c.toNat - '0'.toNat) else none

/-- Accumulating decimal parser over digits. -/
def parseDigitsAux : Str → Nat → Option Nat
  | [], acc => some acc
  | c :: rest, acc =>
    match digitVal c with
    | none => none
    | some d => parseDigitsAux rest (acc * 10 + d)

/-- Modelled from the spec: Go's `strconv.ParseInt(s, 10, 64)` on the
inputs the engine feeds it — optional sign then decimal digits; the
empty string is an error.  64-bit overflow is not modelled. -/
def parseIntStr : Str → Option Int
  | [] => none
  | '-' :: rest =>
    if rest = [] then none else (parseDigitsAux rest 0).map (fun n => -(n : Int))
  | s => (parseDigitsAux s 0).map (fun n => (n : Int))

/-- Decimal rendering of a natural number, most significant digit first. -/
def natDigits (n : Nat) : Str := Nat.toDigits 10 n

/-- Modelled from the spec: Go's `strconv.FormatInt(i, 10)`. -/
def formatInt (i : Int) : Str :=
  if i < 0 then '-' :: natDigits i.natAbs else natDigits i.toNat

/-- Suffix of a key after its final `'/'`. -/
def afterLastSlash (s : Str) : Str :=
  ((s.reverse.takeWhile (fun c => c != '/')).reverse)

/-- Modelled from the spec (§3 key encodings): `parsePageID` extracts
the decimal pageID that follows the final `'/'` of a metadata key. -/
def parsePageID (key : Str) : Option Int := parseIntStr (afterLastSlash key)

/-- Modelled from the spec (§3): key-family titles of the MetaKV. -/
def PageMsgSizeTitle : Str := "page_msg_size".data

/-- Modelled from the spec (§3): title of the `page_ts` key family. -/
def PageTsTitle : Str := "page_ts".data

/-- Modelled from the spec (§3): title of the `acked_ts` key family. -/
def AckedTsTitle : Str := "acked_ts".data

/-- Modelled from the spec (§3): `constructKey(title, topic)` is
`title ++ "/" ++ topic`. -/
def constructKey (title topic : Str) : Str := title ++ '/' :: topic

/-- The `acked_ts/{topic}/{pageID}` key built in `expiredCleanUp` and
`calculateTopicAckedSize`. -/
def ackedTsKey (topic : Str) (pageID : Int) : Str :=
  constructKey AckedTsTitle topic ++ '/' :: formatInt pageID

/-- The `page_msg_size/{topic}/` scan lower bound (`pageMsgPrefix` in
the source). -/
def pageMsgPfx (topic : Str) : Str := constructKey PageMsgSizeTitle topic ++ ['/']

/-- Entries visited by the source's page iterator: `Seek(pageMsgPrefix)`
with upper bound `AddOne(pageMsgPrefix)`, i.e. the keys in
`[prefix, AddOne prefix)` in store order. -/
def pageEntries (meta : KV) (topic : Str) : KV :=
  meta.filter (fun e => strLe (pageMsgPfx topic) e.1 && strLt e.1 (addOne (pageMsgPfx topic)))

/-- The configuration values the engine reads through `paramtable`:
`retentionSeconds = int64(RetentionTimeInMinutes.GetAsFloat() * 60)` and
`retentionSizeMB = RetentionSizeInMB.GetAsInt64()`. -/
structure Config where
  retentionSeconds : Int
  retentionSizeMB : Int

/-- Unit-conversion constant of the source: `MB = 1024 * 1024`. -/
def MB : Int := 1024 * 1024

/-- `msgTimeExpiredCheck` of the source: false when the configured
retention time is negative, else `ackedTs + retentionSeconds < now`. -/
def msgTimeExpiredCheck (cfg : Config) (now ackedTs : Int) : Bool :=
  if cfg.retentionSeconds < 0 then false
  else decide (ackedTs + cfg.retentionSeconds < now)

/-- `msgSizeExpiredCheck` of the source: false when the configured size
cap is negative, else `ackedSize - deletedAckedSize > size*MB`. -/
def msgSizeExpiredCheck (cfg : Config) (deletedAckedSize ackedSize : Int) : Bool :=
  if cfg.retentionSizeMB < 0 then false
  else decide (ackedSize - deletedAckedSize > cfg.retentionSizeMB * MB)

/-- The two pebble instances owned by the queue: `data` is the message
store (`ri.db`, keys `{topic}/{seqID}`), `meta` is the bookkeeping
store (`ri.kv.DB`). -/
structure Store where
  meta : KV
  data : KV
deriving DecidableEq

/-- The loop body of `calculateTopicAckedSize` (source lines 261-287):
for each visited page parse its pageID, stop at the first page whose
`acked_ts` lookup is empty, otherwise parse the size value and
accumulate.  Parse failures abort with an error (the source returns
`(-1, err)`). -/
def calcSizeLoop (meta : KV) (topic : Str) : KV → Int → Except String Int
  | [], acc => .ok acc
  | (k, v) :: rest, acc =>
    match parsePageID k with
    | none => .error "parse pageID failed"
    | some pageID =>
      if load meta (ackedTsKey topic pageID) = [] then .ok acc
      else
        match parseIntStr v with
        | none => .error "parse size failed"
        | some size => calcSizeLoop meta topic rest (acc + size)

/-- `calculateTopicAckedSize` of the source: scan the
`page_msg_size/{topic}/` range of MetaKV and sum the sizes of the
acked page prefix. -/
def calculateTopicAckedSize (s : Store) (topic : Str) : Except String Int :=
  calcSizeLoop s.meta topic (pageEntries s.meta topic) 0

/-- The time-based pass of `expiredCleanUp` (source lines 173-205):
walk the page iterator, stop at the first unacked page or the first
page whose acked timestamp is not time-expired; each expired page sets
`pageEndID` to its pageID and accumulates `deletedAckedSize` and
`pageCleaned`.  Returns the three accumulators and the iterator
remainder (the loop leaves the iterator on the page that stopped it).
The log-only local `lastAck` of the source is omitted. -/
def timeLoop (cfg : Config) (now : Int) (meta : KV) (topic : Str) :
    KV → Int → Int → Int → Except String (Int × Int × Int × KV)
  | [], pageEndID, deletedAckedSize, pageCleaned =>
    .ok (pageEndID, deletedAckedSize, pageCleaned, [])
  | (k, v) :: rest, pageEndID, deletedAckedSize, pageCleaned =>
    match parsePageID k with
    | none => .error "parse pageID failed"
    | some pageID =>
      let ackedTsVal := load meta (ackedTsKey topic pageID)
      if ackedTsVal = [] then
        .ok (pageEndID, deletedAckedSize, pageCleaned, (k, v) :: rest)
      else
        match parseIntStr ackedTsVal with
        | none => .error "parse ackedTs failed"
        | some ackedTs =>
          if msgTimeExpiredCheck cfg now ackedTs then
            match parseIntStr v with
            | none => .error "parse size failed"
            | some size =>
              timeLoop cfg now meta topic rest pageID (deletedAckedSize + size) (pageCleaned + 1)
          else
            .ok (pageEndID, deletedAckedSize, pageCleaned, (k, v) :: rest)

/-- The size-based pass of `expiredCleanUp` (source lines 214-233):
continue the same iterator; each page whose deletion would still leave
more than the configured quota of acked bytes is marked, the first page
failing the check stops the pass.  Note the pass never consults
`acked_ts`. -/
def sizeLoop (cfg : Config) (totalAckedSize : Int) :
    KV → Int → Int → Int → Except String (Int × Int × Int)
  | [], pageEndID, deletedAckedSize, pageCleaned =>
    .ok (pageEndID, deletedAckedSize, pageCleaned)
  | (k, v) :: rest, pageEndID, deletedAckedSize, pageCleaned =>
    match parseIntStr v with
    | none => .error "parse size failed"
    | some size =>
      let curDeleteSize := deletedAckedSize + size
      if msgSizeExpiredCheck cfg curDeleteSize totalAckedSize then
        match parsePageID k with
        | none => .error "parse pageID failed"
        | some pageID =>
          sizeLoop cfg totalAckedSize rest pageID (deletedAckedSize + size) (pageCleaned + 1)
      else
        .ok (pageEndID, deletedAckedSize, pageCleaned)

/-- `DeleteMessages` of the source: one atomic DataKV batch holding a
single range-delete over `[topic/startID, topic/(endID+1))`
(`path.Join` of the two plain segments is `topic ++ "/" ++ id`).  Its
only failure mode is the environmental batch-commit failure, which is
modelled at the call site in `cleanDataGen`. -/
def DeleteMessages (data : KV) (topic : Str) (startID endID : Int) : KV :=
  deleteRange data (topic ++ '/' :: formatInt startID) (topic ++ '/' :: formatInt (endID + 1))

/-- `cleanData` of the source, with the environment's two decision
points explicit: `locks` is the process-wide topic-lock registry
(`topicMu`; the `*sync.Mutex` type assertion of the source cannot fail
in the model) and `dmOk` says whether the DataKV batch commit inside
`DeleteMessages` succeeds.  The MetaKV batch of three range-deletes is
built up-front in memory and committed only after `DeleteMessages`
returns, exactly as in the source; the returned store is the store
after the call, unchanged on the error paths because no commit has
happened by then. -/
def cleanDataGen (dmOk : Bool) (locks : List Str) (s : Store) (topic : Str)
    (pageEndID : Int) : Except String Unit × Store :=
  let pageStartIDKey := constructKey PageMsgSizeTitle topic ++ ['/']
  let pageEndIDKey := constructKey PageMsgSizeTitle topic ++ '/' :: formatInt (pageEndID + 1)
  let pageTsStartIDKey := constructKey PageTsTitle topic ++ ['/']
  let pageTsEndIDKey := constructKey PageTsTitle topic ++ '/' :: formatInt (pageEndID + 1)
  let ackedStartIDKey := constructKey AckedTsTitle topic ++ ['/']
  let ackedEndIDKey := constructKey AckedTsTitle topic ++ '/' :: formatInt (pageEndID + 1)
  if topic ∈ locks then
    if dmOk then
      let data1 := DeleteMessages s.data topic 0 pageEndID
      let meta1 :=
        deleteRange
          (deleteRange (deleteRange s.meta pageStartIDKey pageEndIDKey)
            pageTsStartIDKey pageTsEndIDKey)
          ackedStartIDKey ackedEndIDKey
      (.ok (), { meta := meta1, data := data1 })
    else
      (.error "delete messages failed", s)
  else
    (.error ("topic name = " ++ String.mk topic ++ " not exist"), s)

/-- `cleanData` in the run where both commits succeed, as invoked by
`expiredCleanUp`. -/
def cleanData (locks : List Str) (s : Store) (topic : Str) (pageEndID : Int) :
    Except String Store :=
  match cleanDataGen true locks s topic pageEndID with
  | (.ok _, s1) => .ok s1
  | (.error e, _) => .error e

/-- `expiredCleanUp` of the source (lines 146-247): compute the total
acked size, take the quick path when it is zero, run the time-based
pass then the size-based pass over the same iterator, take the second
quick path when `pageEndID` is still zero, otherwise evict through
`cleanData`.  The returned flag records whether `cleanData` ran (i.e.
whether any batch was committed); the list-backed iterator cannot
produce the `pageIter.Err()` of the source. -/
def expiredCleanUp (cfg : Config) (now : Int) (locks : List Str) (s : Store)
    (topic : Str) : Except String (Store × Bool) :=
  match calculateTopicAckedSize s topic with
  | .error e => .error e
  | .ok totalAckedSize =>
    if totalAckedSize = 0 then .ok (s, false)
    else
      match timeLoop cfg now s.meta topic (pageEntries s.meta topic) 0 0 0 with
      | .error e => .error e
      | .ok (pEnd1, dSize1, pc1, rest) =>
        match sizeLoop cfg totalAckedSize rest pEnd1 dSize1 pc1 with
        | .error e => .error e
        | .ok (pageEndID, _, _) =>
          if pageEndID = 0 then .ok (s, false)
          else
            match cleanData locks s topic pageEndID with
            | .error e => .error e
            | .ok s2 => .ok (s2, true)

/-- The per-topic body of the retention ticker (source lines 114-127):
when the topic is due (`lastRetentionTs + checkTime < timeNow`) run
`expiredCleanUp`; an error is logged at warn (third component) and the
tracker entry is inserted with `timeNow` by the line that follows the
error check.  Returns `(new tracker timestamp, store after, warn
logged)`. -/
def retentionTickTopic (cfg : Config) (checkTime timeNow : Int) (locks : List Str)
    (s : Store) (topic : Str) (lastRetentionTs : Int) : Int × Store × Bool :=
  if lastRetentionTs + checkTime < timeNow then
    match expiredCleanUp cfg timeNow locks s topic with
    | .ok (s1, _) => (timeNow, s1, false)
    | .error _ => (timeNow, s, true)
  else
    (lastRetentionTs, s, false)

/-- `SeekToLast` on a store: the greatest entry, `none` when the store
is empty (`iter.Valid()` false). -/
def lastEntry (kv : KV) : Option (Str × Str) := kv.getLast?

/-- The compaction-ticker body (source lines 95-113): for the message
DB and then the meta DB, seek to the last entry and, when the store is
non-empty, request `Compact(nil, AddOne(string(iter.Value())), true)`
— note the source passes the last entry's value, not its key.  Each
request is `(start, bound, force)`. -/
def compactionTick (s : Store) : List (Option Str × Str × Bool) :=
  (match lastEntry s.data with
   | some e => [(none, addOne e.2, true)]
   | none => []) ++
  (match lastEntry s.meta with
   | some e => [(none, addOne e.2, true)]
   | none => [])

/-- Insertion step for sorting page entries by numeric pageID. -/
def insertByID (e : Str × Str) : KV → KV
  | [] => [e]
  | f :: rest =>
    if (parsePageID e.1).getD 0 ≤ (parsePageID f.1).getD 0 then e :: f :: rest
    else f :: insertByID e rest

/-- Sort page entries by ascending numeric pageID. -/
def sortByID : KV → KV
  | [] => []
  | e :: rest => insertByID e (sortByID rest)

/-- Follows the claim's words for C5 (not the source): run the acked
size scan over the pages of the topic in ascending numeric pageID
order, to be compared with `calculateTopicAckedSize`, whose iterator
visits the pages in lexicographic key order instead. -/
def calcAckedSizeByNumericOrder (s : Store) (topic : Str) : Except String Int :=
  calcSizeLoop s.meta topic (sortByID (pageEntries s.meta topic)) 0

/-- Sum of the parsed decimal sizes of a list of page entries. -/
def sizesOf : KV → Int
  | [] => 0
  | e :: rest => (parseIntStr e.2).getD 0 + sizesOf rest

/-- `a` is a prefix of `b` as byte strings. -/
def segPre (a b : Str) : Prop := ∃ t, a ++ t = b

/-- Concrete store for C1: `acked_ts/T/0` holds the unparseable value
`zz`, so the time-based pass of `expiredCleanUp` fails. -/
def Sbad : Store :=
  { meta := [("acked_ts/T/0".data, "zz".data), ("page_msg_size/T/0".data, "10".data)]
    data := [] }

/-- Configuration used by the concrete scenarios: retention time 100
seconds, size cap 0 MB (both policies enabled). -/
def cfgB : Config := { retentionSeconds := 100, retentionSizeMB := 0 }

/-- Concrete store for C2: non-empty DataKV whose single entry has key
`T/0` and value `v`, empty MetaKV. -/
def S2c : Store := { meta := [], data := [("T/0".data, "v".data)] }

/-- Concrete store for C3: topic `T` has page 5 with size 7, acked. -/
def S3 : Store :=
  { meta := [("acked_ts/T/5".data, "100".data), ("page_msg_size/T/5".data, "7".data)]
    data := [] }

/-- Concrete store for C4: page 1 is acked long ago (evictable), page
10 has no `acked_ts` key (not acked). -/
def S4 : Store :=
  { meta := [("acked_ts/T/1".data, "100".data), ("page_msg_size/T/1".data, "10".data),
             ("page_msg_size/T/10".data, "5".data)]
    data := [("T/1".data, "a".data), ("T/10".data, "b".data)] }

/-- Concrete store for C5: page 2 is not acked, page 10 is acked with
size 7; numeric order visits page 2 first, lexicographic order visits
page 10 first. -/
def S5s : Store :=
  { meta := [("acked_ts/T/10".data, "100".data), ("page_msg_size/T/10".data, "7".data),
             ("page_msg_size/T/2".data, "3".data)]
    data := [] }

/-- Concrete store for C7: page 0 alone, acked long ago, hence marked
by the time pass — but `pageEndID` stays 0 and nothing is evicted. -/
def S7 : Store :=
  { meta := [("acked_ts/T/0".data, "100".data), ("page_msg_size/T/0".data, "10".data)]
    data := [] }

/-- Concrete store for C8: page 1 acked recently (blocks the time
pass), page 2 acked long ago; with a 0 MB quota the size pass evicts
page 1 on the first run, and the second run's time pass then evicts
page 2 — so the second run commits a batch. -/
def S8 : Store :=
  { meta := [("acked_ts/T/1".data, "990".data), ("acked_ts/T/2".data, "100".data),
             ("page_msg_size/T/1".data, "10".data), ("page_msg_size/T/2".data, "5".data)]
    data := [("T/1".data, "m1".data), ("T/2".data, "m2".data)] }

/-- The store left by the first `expiredCleanUp` run on `S8`. -/
def S8b : Store :=
  { meta := [("acked_ts/T/2".data, "100".data), ("page_msg_size/T/2".data, "5".data)]
    data := [("T/2".data, "m2".data)] }

/-- Concrete store for C10: keys of topic `T` (to be evicted) next to
keys of the foreign topic `U`. -/
def S10 : Store :=
  { meta := [("acked_ts/T/1".data, "100".data), ("page_msg_size/U/3".data, "7".data)]
    data := [("T/1".data, "x".data), ("U/7".data, "m".data)] }

/-- The store left by `cleanData("T", 9)` on `S10`: topic `T`'s keys
are gone, topic `U`'s keys survive. -/
def S10b : Store :=
  { meta := [("page_msg_size/U/3".data, "7".data)]
    data := [("U/7".data, "m".data)] }

/-- A key outside the deleted span `[lo, hi)` keeps its binding across
a `deleteRange`. -/
theorem lookup_deleteRange_eq (lo hi k : Str)
    (h : (strLe lo k && strLt k hi) = false) :
    ∀ m : KV, List.lookup k (deleteRange m lo hi) = List.lookup k m := by
  intro m
  induction m with
  | nil => rfl
  | cons a m ih =>
    obtain ⟨ak, av⟩ := a
    have hstep : deleteRange ((ak, av) :: m) lo hi =
        (if (!(strLe lo ak && strLt ak hi)) = true then
          (ak, av) :: deleteRange m lo hi else deleteRange m lo hi) := by
      simp only [deleteRange, List.filter_cons]
    cases hb : strLe lo ak && strLt ak hi with
    | false =>
      have hc : (!(strLe lo ak && strLt ak hi)) = true := by rw [hb]; rfl
      rw [hstep, if_pos hc]
      by_cases hk : k = ak
      · subst hk
        simp [List.lookup]
      · have hbeq : (k == ak) = false := by simpa using hk
        simp only [List.lookup, hbeq]
        exact ih
    | true =>
      have hc : (!(strLe lo ak && strLt ak hi)) = false := by rw [hb]; rfl
      rw [hstep, if_neg (by simp [hc])]
      have hk : k ≠ ak := by
        intro he
        rw [he, hb] at h
        exact absurd h (by simp)
      have hbeq : (k == ak) = false := by simpa using hk
      rw [ih]
      simp [List.lookup, hbeq]

/-- A string lying between two extensions of `P` in the lexicographic
order starts with `P`. -/
theorem strLt_between_pfx : ∀ (P k x y : Str), strLt k (P ++ x) = false →
    strLt k (P ++ y) = true → segPre P k := by
  intro P
  induction P with
  | nil => intro k x y _ _; exact ⟨k, rfl⟩
  | cons c P ih =>
    intro k x y h1 h2
    cases k with
    | nil => simp [strLt] at h1
    | cons a k =>
      simp only [List.cons_append, strLt] at h1 h2
      rw [Bool.or_eq_false_iff] at h1
      obtain ⟨hlt, hand⟩ := h1
      rw [Bool.or_eq_true] at h2
      rcases h2 with h2 | h2
      · rw [hlt] at h2; exact absurd h2 (by simp)
      · rw [Bool.and_eq_true] at h2
        obtain ⟨hac, hlty⟩ := h2
        have hac' : a = c := by simpa using hac
        rw [hac, Bool.true_and] at hand
        obtain ⟨t, ht⟩ := ih k x y hand hlty
        exact ⟨t, by rw [List.cons_append, hac', ht]⟩

/-- Prefix decomposition along the first `'/'`: when neither side's
leading segment contains `'/'`, a prefix relation between
`A ++ "/" ++ u` and `B ++ "/" ++ v` forces `A = B`. -/
theorem segPre_slash : ∀ (A B u v : Str), '/' ∉ A → '/' ∉ B →
    segPre (A ++ '/' :: u) (B ++ '/' :: v) → A = B ∧ segPre u v := by
  intro A
  induction A with
  | nil =>
    intro B u v _ hB hs
    obtain ⟨t, ht⟩ := hs
    cases B with
    | nil =>
      simp only [List.nil_append, List.cons_append, List.cons.injEq] at ht
      exact ⟨rfl, ⟨t, ht.2⟩⟩
    | cons b B =>
      simp only [List.nil_append, List.cons_append, List.cons.injEq] at ht
      exact absurd (ht.1 ▸ List.mem_cons_self b B) hB
  | cons a A ih =>
    intro B u v hA hB hs
    obtain ⟨t, ht⟩ := hs
    cases B with
    | nil =>
      simp only [List.cons_append, List.nil_append, List.cons.injEq] at ht
      exact absurd (ht.1 ▸ List.mem_cons_self a A) hA
    | cons b B =>
      simp only [List.cons_append, List.cons.injEq] at ht
      obtain ⟨hab, ht2⟩ := ht
      have hr := ih B u v (fun h => hA (List.mem_cons_of_mem a h))
        (fun h => hB (List.mem_cons_of_mem b h)) ⟨t, by simpa using ht2⟩
      exact ⟨by rw [hab, hr.1], hr.2⟩

/-- A key that does not start with `P` is untouched by a range-delete
whose bounds both extend `P`. -/
theorem lookup_deleteRange_out (m : KV) (P lo hi k : Str)
    (hlo : ∃ x, lo = P ++ x) (hhi : ∃ y, hi = P ++ y)
    (hk : ¬ segPre P k) :
    List.lookup k (deleteRange m lo hi) = List.lookup k m := by
  obtain ⟨x, rfl⟩ := hlo
  obtain ⟨y, rfl⟩ := hhi
  apply lookup_deleteRange_eq
  cases hb : strLe (P ++ x) k && strLt k (P ++ y) with
  | false => rfl
  | true =>
    exfalso
    rw [Bool.and_eq_true] at hb
    have h1 : strLt k (P ++ x) = false := by
      have h := hb.1
      unfold strLe at h
      simpa using h
    exact hk (strLt_between_pfx P k x y h1 hb.2)

/-- Decomposition of a successful `calcSizeLoop` run: the visited list
splits into an acked prefix, whose sizes are summed, and a remainder
whose head (if any) is the first unacked page, where the scan stopped. -/
theorem calcSizeLoop_split (meta : KV) (topic : Str) :
    ∀ (l : KV) (acc n : Int), calcSizeLoop meta topic l acc = .ok n →
      ∃ pre post, l = pre ++ post ∧
        (∀ e ∈ pre, load meta (ackedTsKey topic ((parsePageID e.1).getD 0)) ≠ []) ∧
        (∀ e ∈ post.head?, load meta (ackedTsKey topic ((parsePageID e.1).getD 0)) = []) ∧
        n = acc + sizesOf pre := by
  intro l
  induction l with
  | nil =>
    intro acc n h
    simp only [calcSizeLoop, Except.ok.injEq] at h
    exact ⟨[], [], rfl, by simp, by simp, by simp [sizesOf, ← h]⟩
  | cons e l ih =>
    intro acc n h
    obtain ⟨k, v⟩ := e
    unfold calcSizeLoop at h
    split at h
    · exact absurd h (by simp)
    · rename_i pid hp
      split at h
      · rename_i hav
        simp only [Except.ok.injEq] at h
        refine ⟨[], (k, v) :: l, rfl, by simp, ?_, by simp [sizesOf, ← h]⟩
        intro e he
        simp only [List.head?_cons, Option.mem_def, Option.some.injEq] at he
        rw [← he]
        simpa [hp] using hav
      · rename_i hav
        split at h
        · exact absurd h (by simp)
        · rename_i size hs
          obtain ⟨pre, post, hl, hpre, hpost, hn⟩ := ih (acc + size) n h
          refine ⟨(k, v) :: pre, post, by rw [List.cons_append, hl], ?_, hpost, ?_⟩
          · intro e he
            rcases List.mem_cons.mp he with he | he
            · rw [he]; simpa [hp] using hav
            · exact hpre e he
          · rw [hn]
            simp only [sizesOf, hs, Option.getD_some]
            ring

/-- C6: the time-expiry predicate holds iff the configured retention
time is non-negative and `ackedTs + retentionSeconds < now`; the
size-expiry predicate holds iff the configured size cap is non-negative
and the acked bytes that would remain, `total - deleted`, exceed
`retentionSizeMB * 2^20`; a negative configured value makes the
corresponding predicate false on every input. -/
theorem expiry_predicates_spec (cfg : Config) (now ackedTs deleted total : Int) :
    (msgTimeExpiredCheck cfg now ackedTs = true ↔
      0 ≤ cfg.retentionSeconds ∧ ackedTs + cfg.retentionSeconds < now) ∧
    (msgSizeExpiredCheck cfg deleted total = true ↔
      0 ≤ cfg.retentionSizeMB ∧ total - deleted > cfg.retentionSizeMB * (2 ^ 20 : Int)) ∧
    (cfg.retentionSeconds < 0 → msgTimeExpiredCheck cfg now ackedTs = false) ∧
    (cfg.retentionSizeMB < 0 → msgSizeExpiredCheck cfg deleted total = false) := by
  have hMB : MB = (2 ^ 20 : Int) := by norm_num [MB]
  unfold msgTimeExpiredCheck msgSizeExpiredCheck
  rw [hMB]
  refine ⟨?_, ?_, ?_, ?_⟩
  · split
    · rename_i hneg
      simp only [Bool.false_eq_true, false_iff]
      intro hc
      omega
    · rename_i hpos
      simp only [decide_eq_true_eq]
      omega
  · split
    · rename_i hneg
      simp only [Bool.false_eq_true, false_iff]
      intro hc
      omega
    · rename_i hpos
      simp only [decide_eq_true_eq]
      omega
  · intro hneg
    rw [if_pos hneg]
  · intro hneg
    rw [if_pos hneg]

/-- C6 witness: with both configured values negative, both predicates
return false. -/
theorem expiry_predicates_spec_witness :
    msgTimeExpiredCheck { retentionSeconds := -1, retentionSizeMB := -1 } 0 0 = false ∧
    msgSizeExpiredCheck { retentionSeconds := -1, retentionSizeMB := -1 } 0 0 = false :=
  ⟨(expiry_predicates_spec { retentionSeconds := -1, retentionSizeMB := -1 } 0 0 0 0).2.2.1
      (by decide),
   (expiry_predicates_spec { retentionSeconds := -1, retentionSizeMB := -1 } 0 0 0 0).2.2.2
      (by decide)⟩

/-- C2: on a compaction tick over `S2c` — one DataKV entry with key
`T/0` and value `v`, empty MetaKV — the source issues exactly one
compaction request for the non-empty store and skips the empty one, but
the bound it passes is `AddOne` of the last entry's VALUE (`"w"`), not
of its last KEY (`AddOne "T/0" = "T/1"`), contradicting both the claim
and the source's own comment that the end key must be provided. -/
theorem compaction_tick_uses_value_not_key :
    sortedB S2c.data = true ∧
    compactionTick S2c = [(none, "w".data, true)] ∧
    addOne ("T/0".data) = "T/1".data ∧
    ("w".data : Str) ≠ "T/1".data :=
  ⟨rfl, rfl, rfl, by decide⟩

/-- C3: `cleanData("T", 9)` succeeds on `S3` but the metadata of page 5
(both `page_msg_size/T/5` and `acked_ts/T/5`) survives although
`5 ≤ 9`, because the decimal string `"5"` is lexicographically at or
above the range bound `"10"`; the returned store equals the input. -/
theorem cleanData_leaves_small_pageID_key :
    sortedB S3.meta = true ∧
    cleanData ["T".data] S3 "T".data 9 = .ok S3 ∧
    List.lookup ("page_msg_size/T/5".data) S3.meta = some ("7".data) ∧
    List.lookup ("acked_ts/T/5".data) S3.meta = some ("100".data) ∧
    ((5 : Int) ≤ 9) :=
  ⟨rfl, rfl, rfl, rfl, by decide⟩

/-- C4: running `expiredCleanUp` on `S4` — page 1 acked and
time-expired, page 10 with NO `acked_ts` key — evicts page 10 as well:
its `page_msg_size` metadata and its DataKV entry are deleted (the
range-delete bound `"2"` lexicographically covers `"10"`), although its
`acked_ts` key was absent at the time of the pass. -/
theorem expiredCleanUp_evicts_unacked_page :
    sortedB S4.meta = true ∧ sortedB S4.data = true ∧
    load S4.meta ("acked_ts/T/10".data) = [] ∧
    List.lookup ("page_msg_size/T/10".data) S4.meta = some ("5".data) ∧
    List.lookup ("T/10".data) S4.data = some ("b".data) ∧
    expiredCleanUp cfgB 1000 ["T".data] S4 "T".data =
      .ok ({ meta := [], data := [] }, true) :=
  ⟨rfl, rfl, rfl, rfl, rfl, rfl⟩

/-- C1 counterexample: on the store `Sbad` the call `expiredCleanUp`
fails (unparseable acked timestamp), yet the retention tick body still
sets the tracker entry to the tick's time `1000`, advancing it away
from the previous value `50` — the tracker is NOT left un-advanced on
error as the claim states. -/
theorem retention_tick_advances_on_error_cex :
    sortedB Sbad.meta = true ∧
    expiredCleanUp cfgB 1000 ["T".data] Sbad "T".data = .error "parse ackedTs failed" ∧
    retentionTickTopic cfgB 100 1000 ["T".data] Sbad "T".data 50 = (1000, Sbad, true) ∧
    (1000 : Int) ≠ 50 :=
  ⟨rfl, rfl, rfl, by decide⟩

/-- C1 (amended): on each retention tick, for every tracked topic due
for a check, an error from `expiredCleanUp` is logged, and the
retention-tracker timestamp is set to the tick's current time whether
or not `expiredCleanUp` succeeded (the source inserts `timeNow`
unconditionally after the error check). -/
theorem retention_tick_tracker_always_set (cfg : Config) (checkTime timeNow : Int)
    (locks : List Str) (s : Store) (topic : Str) (lastTs : Int)
    (h : lastTs + checkTime < timeNow) :
    (retentionTickTopic cfg checkTime timeNow locks s topic lastTs).1 = timeNow ∧
    ((retentionTickTopic cfg checkTime timeNow locks s topic lastTs).2.2 = true ↔
      ∃ e, expiredCleanUp cfg timeNow locks s topic = .error e) := by
  unfold retentionTickTopic
  rw [if_pos h]
  cases hE : expiredCleanUp cfg timeNow locks s topic with
  | ok p =>
    obtain ⟨s1, b⟩ := p
    simp
  | error e =>
    simp

/-- C1 witness: the amended statement at the concrete failing store. -/
theorem retention_tick_tracker_always_set_witness :
    (retentionTickTopic cfgB 100 1000 ["T".data] Sbad "T".data 50).1 = 1000 ∧
    ((retentionTickTopic cfgB 100 1000 ["T".data] Sbad "T".data 50).2.2 = true ↔
      ∃ e, expiredCleanUp cfgB 1000 ["T".data] Sbad "T".data = .error e) :=
  retention_tick_tracker_always_set cfgB 100 1000 ["T".data] Sbad "T".data 50 (by decide)

/-- C5 counterexample: on `S5s` (page 2 unacked, page 10 acked with
size 7) the source's scan visits page 10 first — lexicographic key
order, not ascending numeric pageID order — and returns 7, while the
scan in ascending numeric pageID order described by the claim would
stop at the unacked page 2 and return 0. -/
theorem calcAckedSize_order_cex :
    sortedB S5s.meta = true ∧
    calculateTopicAckedSize S5s "T".data = .ok 7 ∧
    calcAckedSizeByNumericOrder S5s "T".data = .ok 0 ∧
    ((7 : Int) ≠ 0) :=
  ⟨rfl, rfl, rfl, by decide⟩

/-- C5 (amended): `calculateTopicAckedSize` scans the pages of the
topic in the iterator's (lexicographic key) order: the visited range
splits into a prefix of pages whose `acked_ts` lookup is non-empty,
whose sizes are summed into the result, and a remainder whose first
page — where the scan stopped without skipping anything — has an empty
`acked_ts` lookup. -/
theorem calcAckedSize_lex_scan (s : Store) (topic : Str) (n : Int)
    (h : calculateTopicAckedSize s topic = .ok n) :
    ∃ pre post, pageEntries s.meta topic = pre ++ post ∧
      (∀ e ∈ pre, load s.meta (ackedTsKey topic ((parsePageID e.1).getD 0)) ≠ []) ∧
      (∀ e ∈ post.head?, load s.meta (ackedTsKey topic ((parsePageID e.1).getD 0)) = []) ∧
      n = sizesOf pre := by
  obtain ⟨pre, post, h1, h2, h3, h4⟩ := calcSizeLoop_split s.meta topic _ 0 n h
  exact ⟨pre, post, h1, h2, h3, by omega⟩

/-- C5 witness: the amended scan decomposition at the concrete store. -/
theorem calcAckedSize_lex_scan_witness :
    ∃ pre post, pageEntries S5s.meta ("T".data) = pre ++ post ∧
      (∀ e ∈ pre, load S5s.meta (ackedTsKey ("T".data) ((parsePageID e.1).getD 0)) ≠ []) ∧
      (∀ e ∈ post.head?, load S5s.meta (ackedTsKey ("T".data) ((parsePageID e.1).getD 0)) = []) ∧
      (7 : Int) = sizesOf pre :=
  calcAckedSize_lex_scan S5s ("T".data) 7 rfl

/-- C7: `expiredCleanUp` returns success with the store unchanged and
no batch committed whenever the computed total acked size is 0, and
likewise whenever the `pageEndID` left by the time-based and size-based
passes is 0 — which covers the case where page 0 itself was marked
evictable, since marking page 0 sets `pageEndID` to 0. -/
theorem expiredCleanUp_skips (cfg : Config) (now : Int) (locks : List Str)
    (s : Store) (topic : Str) :
    (calculateTopicAckedSize s topic = .ok 0 →
      expiredCleanUp cfg now locks s topic = .ok (s, false)) ∧
    (∀ t p1 d1 c1 rest d c,
      calculateTopicAckedSize s topic = .ok t →
      timeLoop cfg now s.meta topic (pageEntries s.meta topic) 0 0 0 = .ok (p1, d1, c1, rest) →
      sizeLoop cfg t rest p1 d1 c1 = .ok (0, d, c) →
      expiredCleanUp cfg now locks s topic = .ok (s, false)) := by
  constructor
  · intro h
    unfold expiredCleanUp
    rw [h]
    simp
  · intro t p1 d1 c1 rest d c h1 h2 h3
    unfold expiredCleanUp
    rw [h1]
    by_cases ht : t = 0
    · simp [ht]
    · simp [ht, h2, h3]

/-- C7 witness: the quick paths at an empty store (total acked size 0)
and at `S7`, where page 0 is acked and time-expired — marked by the
time pass — yet `pageEndID = 0` and nothing is evicted. -/
theorem expiredCleanUp_skips_witness :
    expiredCleanUp cfgB 1000 ["T".data] { meta := [], data := [] } "T".data =
      .ok ({ meta := [], data := [] }, false) ∧
    expiredCleanUp cfgB 1000 ["T".data] S7 "T".data = .ok (S7, false) :=
  ⟨(expiredCleanUp_skips cfgB 1000 ["T".data] { meta := [], data := [] } "T".data).1 rfl,
   (expiredCleanUp_skips cfgB 1000 ["T".data] S7 "T".data).2 10 0 10 1 [] 10 1 rfl rfl rfl⟩

/-- C8 counterexample: on `S8` the first `expiredCleanUp` run evicts
page 1 (size pass) and commits a batch, and a second run on the
resulting store `S8b`, with unchanged configuration and clock, is NOT a
no-op: its time pass now reaches the long-ago-acked page 2, commits a
further batch and deletes page 2. -/
theorem expiredCleanUp_second_run_not_noop :
    sortedB S8.meta = true ∧ sortedB S8.data = true ∧
    expiredCleanUp cfgB 1000 ["T".data] S8 "T".data = .ok (S8b, true) ∧
    expiredCleanUp cfgB 1000 ["T".data] S8b "T".data =
      .ok ({ meta := [], data := [] }, true) ∧
    S8b ≠ { meta := [], data := [] } :=
  ⟨rfl, rfl, rfl, rfl, by decide⟩

/-- C8 (amended): if a run of `expiredCleanUp` commits no batch, it
leaves the store unchanged, and a second run with unchanged stores,
configuration and clock is then also a no-op; in general a first run
that did evict pages may be followed by a second run that evicts
further pages. -/
theorem expiredCleanUp_noop_stable (cfg : Config) (now : Int) (locks : List Str)
    (s s1 : Store) (topic : Str)
    (h : expiredCleanUp cfg now locks s topic = .ok (s1, false)) :
    s1 = s ∧ expiredCleanUp cfg now locks s1 topic = .ok (s1, false) := by
  have hs : s1 = s := by
    unfold expiredCleanUp at h
    split at h
    · exact absurd h (by simp)
    · split at h
      · simp only [Except.ok.injEq, Prod.mk.injEq] at h
        exact h.1.symm
      · split at h
        · exact absurd h (by simp)
        · split at h
          · exact absurd h (by simp)
          · split at h
            · simp only [Except.ok.injEq, Prod.mk.injEq] at h
              exact h.1.symm
            · split at h
              · exact absurd h (by simp)
              · simp at h
  subst hs
  exact ⟨rfl, h⟩

/-- C8 witness: a run that commits nothing (empty store) is stable
under repetition. -/
theorem expiredCleanUp_noop_stable_witness :
    ({ meta := [], data := [] } : Store) = { meta := [], data := [] } ∧
    expiredCleanUp cfgB 1000 ["T".data] { meta := [], data := [] } "T".data =
      .ok ({ meta := [], data := [] }, false) :=
  expiredCleanUp_noop_stable cfgB 1000 ["T".data]
    { meta := [], data := [] } { meta := [], data := [] } "T".data rfl

/-- C9: `cleanDataGen` is atomic on its error paths: when the topic has
no entry in the topic-lock registry it returns the structured error
naming the topic with both stores unchanged (for either outcome of the
DataKV commit), and when the `DeleteMessages` commit fails the call
errors out with the whole store — in particular MetaKV — unchanged,
because the MetaKV batch is committed only after `DeleteMessages`
succeeds. -/
theorem cleanData_error_paths (b : Bool) (locks : List Str) (s : Store)
    (topic : Str) (E : Int) :
    (topic ∉ locks →
      cleanDataGen b locks s topic E =
        (.error ("topic name = " ++ String.mk topic ++ " not exist"), s)) ∧
    (cleanDataGen false locks s topic E).2 = s ∧
    (∃ e, (cleanDataGen false locks s topic E).1 = .error e) := by
  refine ⟨fun h => ?_, ?_, ?_⟩
  · simp [cleanDataGen, h]
  · by_cases h : topic ∈ locks
    · simp [cleanDataGen, h]
    · simp [cleanDataGen, h]
  · by_cases h : topic ∈ locks
    · exact ⟨"delete messages failed", by simp [cleanDataGen, h]⟩
    · exact ⟨"topic name = " ++ String.mk topic ++ " not exist", by simp [cleanDataGen, h]⟩

/-- C9 witness: both error paths at a concrete store and topic. -/
theorem cleanData_error_paths_witness :
    cleanDataGen true [] { meta := [], data := [] } ("T".data) 1 =
      (.error ("topic name = " ++ String.mk ("T".data) ++ " not exist"),
        { meta := [], data := [] }) ∧
    (cleanDataGen false [] { meta := [], data := [] } ("T".data) 1).2 =
      { meta := [], data := [] } ∧
    (∃ e, (cleanDataGen false [] { meta := [], data := [] } ("T".data) 1).1 = .error e) :=
  ⟨(cleanData_error_paths true [] { meta := [], data := [] } ("T".data) 1).1 (by decide),
   (cleanData_error_paths false [] { meta := [], data := [] } ("T".data) 1).2.1,
   (cleanData_error_paths false [] { meta := [], data := [] } ("T".data) 1).2.2⟩

/-- C10: per-topic isolation of eviction.  A successful
`cleanData(topic, E)` for a topic whose name contains no `'/'` leaves
unchanged every MetaKV key of the three page families whose topic
component `t2` differs from `topic`, and every DataKV key whose topic
component differs from `topic`. -/
theorem cleanData_frame_other_topics (locks : List Str) (s : Store) (topic : Str)
    (E : Int) (s2 : Store) (ttl t2 rest rest2 : Str)
    (hok : cleanData locks s topic E = .ok s2)
    (hT : '/' ∉ topic)
    (httl : ttl = PageMsgSizeTitle ∨ ttl = PageTsTitle ∨ ttl = AckedTsTitle)
    (ht2 : '/' ∉ t2) (hne : t2 ≠ topic) :
    List.lookup (ttl ++ '/' :: (t2 ++ '/' :: rest)) s2.meta =
      List.lookup (ttl ++ '/' :: (t2 ++ '/' :: rest)) s.meta ∧
    List.lookup (t2 ++ '/' :: rest2) s2.data =
      List.lookup (t2 ++ '/' :: rest2) s.data := by
  have hTtl : ('/' : Char) ∉ ttl := by
    rcases httl with h | h | h <;> rw [h] <;> decide
  have hs2 : s2.meta = deleteRange (deleteRange (deleteRange s.meta
        (constructKey PageMsgSizeTitle topic ++ ['/'])
        (constructKey PageMsgSizeTitle topic ++ '/' :: formatInt (E + 1)))
        (constructKey PageTsTitle topic ++ ['/'])
        (constructKey PageTsTitle topic ++ '/' :: formatInt (E + 1)))
        (constructKey AckedTsTitle topic ++ ['/'])
        (constructKey AckedTsTitle topic ++ '/' :: formatInt (E + 1)) ∧
      s2.data = DeleteMessages s.data topic 0 E := by
    unfold cleanData cleanDataGen at hok
    by_cases hmem : topic ∈ locks
    · simp only [if_pos hmem, if_true, Except.ok.injEq] at hok
      rw [← hok]
      exact ⟨rfl, rfl⟩
    · simp [hmem] at hok
  have hmetakey : ∀ T0 : Str, ('/' : Char) ∉ T0 →
      ¬ segPre (T0 ++ '/' :: (topic ++ ['/'])) (ttl ++ '/' :: (t2 ++ '/' :: rest)) := by
    intro T0 hT0 hseg
    have h1 := segPre_slash T0 ttl (topic ++ ['/']) (t2 ++ '/' :: rest) hT0 hTtl hseg
    have h2 := segPre_slash topic t2 [] rest hT ht2 h1.2
    exact hne h2.1.symm
  have hm : ∀ (m : KV) (T0 : Str), ('/' : Char) ∉ T0 →
      List.lookup (ttl ++ '/' :: (t2 ++ '/' :: rest))
        (deleteRange m (constructKey T0 topic ++ ['/'])
          (constructKey T0 topic ++ '/' :: formatInt (E + 1))) =
      List.lookup (ttl ++ '/' :: (t2 ++ '/' :: rest)) m := by
    intro m T0 hT0
    have hck : constructKey T0 topic ++ ['/'] = T0 ++ '/' :: (topic ++ ['/']) := by
      unfold constructKey
      rw [List.append_assoc]
      rfl
    apply lookup_deleteRange_out m (constructKey T0 topic ++ ['/'])
    · exact ⟨[], (List.append_nil _).symm⟩
    · refine ⟨formatInt (E + 1), ?_⟩
      rw [List.append_assoc]
      rfl
    · rw [hck]
      exact hmetakey T0 hT0
  refine ⟨?_, ?_⟩
  · rw [hs2.1, hm _ AckedTsTitle (by decide), hm _ PageTsTitle (by decide),
      hm _ PageMsgSizeTitle (by decide)]
  · rw [hs2.2]
    unfold DeleteMessages
    apply lookup_deleteRange_out s.data (topic ++ ['/'])
    · refine ⟨formatInt 0, ?_⟩
      rw [List.append_assoc]
      rfl
    · refine ⟨formatInt (E + 1), ?_⟩
      rw [List.append_assoc]
      rfl
    · intro hseg
      have h2 := segPre_slash topic t2 [] rest2 hT ht2 hseg
      exact hne h2.1.symm

/-- C10 witness: a successful `cleanData("T", 9)` leaves the foreign
topic `U`'s metadata and data keys untouched in `S10`. -/
theorem cleanData_frame_other_topics_witness :
    List.lookup (PageMsgSizeTitle ++ '/' :: ("U".data ++ '/' :: "3".data)) S10b.meta =
      List.lookup (PageMsgSizeTitle ++ '/' :: ("U".data ++ '/' :: "3".data)) S10.meta ∧
    List.lookup ("U".data ++ '/' :: "7".data) S10b.data =
      List.lookup ("U".data ++ '/' :: "7".data) S10.data :=
  cleanData_frame_other_topics ["T".data] S10 ("T".data) 9 S10b PageMsgSizeTitle
    ("U".data) ("3".data) ("7".data) rfl (by decide) (Or.inl rfl) (by decide) (by decide)

end Retention
